import Mathlib

/-!
Verification of the agentcore-cli core subsystems: the identity/credential
provisioning engine (`src/cli/operations/deploy/pre-deploy-identity.ts`),
the deployment discovery and teardown logic
(`src/cli/operations/destroy/index.ts`), and the TUI bind-listing filters
(`AddIdentityFlow.tsx`, `AddMemoryFlow`).

The TypeScript code is shallowly embedded: each orchestration function
becomes a pure Lean function over an explicit environment that fixes the
outcome of every external (remote AWS / filesystem) call, and additionally
returns the trace of external calls it performed.  `Except` models
JavaScript exceptions, `Option` models `undefined`, and `truthy` models
JavaScript string-falsiness (both `undefined` and `""` are falsy).
-/

namespace AgentCore

/-- JavaScript truthiness for an optional string: `undefined` and the empty
string are both falsy.  `truthy x = some s` exactly when the TS value is a
non-empty string `s`. -/
def truthy : Option String → Option String
  | some s => if s = "" then none else some s
  | none => none

/-- Render a TS `string | undefined` the way template interpolation does:
`undefined` prints as `"undefined"`. -/
def tsInterp : Option String → String
  | some s => s
  | none => "undefined"

-- ─────────────────────────────────────────────────────────────────────────
-- Data model (src/schema, as consumed by the embedded functions)
-- ─────────────────────────────────────────────────────────────────────────

/-- The `relation` discriminant of an identity-provider reference:
`'own' | 'use'`. -/
inductive Relation
  | own
  | use
deriving DecidableEq, Repr

/-- One entry of `agent.identityProviders`.  An `own` entry carries the
provider `name`, its `variant` (e.g. `"ApiKeyCredentialProvider"`) and
`envVarName`, the key under which its secret lives locally. -/
structure IdentityProviderRef where
  relation : Relation
  name : String
  variant : String
  envVarName : String
deriving DecidableEq, Repr

/-- `AgentEnvSpec`: one deployable agent (fields the provisioning engine
reads). -/
structure AgentEnvSpec where
  name : String
  identityProviders : List IdentityProviderRef
deriving DecidableEq, Repr

/-- `AgentCoreProjectSpec`: the root project specification (fields the
provisioning engine reads). -/
structure AgentCoreProjectSpec where
  name : String
  agents : List AgentEnvSpec
  identityKmsKeyArn : Option String := none
deriving DecidableEq, Repr

-- ─────────────────────────────────────────────────────────────────────────
-- Remote environment for the identity provisioning engine
-- ─────────────────────────────────────────────────────────────────────────

/-- An error raised by an AWS SDK call; `noCredentials` is what
`isNoCredentialsError` would classify it as. -/
structure AwsErr where
  message : String
  noCredentials : Bool
deriving DecidableEq, Repr

/-- `{ success: boolean; error?: string }`, the result shape of
`setTokenVaultKmsKey` and `createApiKeyProvider`. -/
structure OpResult where
  success : Bool
  error : Option String := none
deriving DecidableEq, Repr

/-- `keyType` of the token vault's `kmsConfiguration`. -/
inductive KeyType
  | customerManagedKey
  | serviceManagedKey
deriving DecidableEq, Repr

/-- The token vault's encryption configuration as `GetTokenVault` would
report it. -/
structure KmsConfiguration where
  keyType : KeyType
  kmsKeyArn : Option String := none
deriving DecidableEq, Repr

/-- The remote world seen by `setupApiKeyProviders`.
`credGet` is `allCredentials.get` (merged `.env.local` plus runtime
overrides); the remaining fields fix the outcome of each remote call.
`getTokenVault` is the vault configuration that a `GetTokenVaultCommand`
lookup would return — it is part of the remote state whether or not the
code ever reads it. -/
structure IdEnv where
  credGet : String → Option String
  getTokenVault : Except AwsErr KmsConfiguration
  createKey : Except AwsErr (Option String)
  setVault : String → Except AwsErr OpResult
  providerExists : String → Except AwsErr Bool
  createProvider : String → String → Except AwsErr OpResult

/-- One remote call made by the provisioning engine, for trace-based
claims ("no create call occurs", "no provider is touched"). -/
inductive IdCall
  | getTokenVault
  | createKmsKey
  | setTokenVault (arn : String)
  | checkExists (name : String)
  | createProvider (name : String)
deriving DecidableEq, Repr

-- ─────────────────────────────────────────────────────────────────────────
-- Result types (pre-deploy-identity.ts)
-- ─────────────────────────────────────────────────────────────────────────

/-- `status` of one `ApiKeyProviderSetupResult`. -/
inductive Status
  | created
  | exists
  | skipped
  | error
deriving DecidableEq, Repr

/-- `ApiKeyProviderSetupResult`. -/
structure ApiKeyProviderSetupResult where
  agentName : String
  providerName : String
  status : Status
  error : Option String := none
deriving DecidableEq, Repr

/-- `PreDeployIdentityResult`. -/
structure PreDeployIdentityResult where
  results : List ApiKeyProviderSetupResult
  hasErrors : Bool
  kmsKeyArn : Option String := none
deriving DecidableEq, Repr

/-- Options of `setupApiKeyProviders` (region/credentials/baseDir are
absorbed into `IdEnv`). -/
structure SetupOptions where
  projectSpec : AgentCoreProjectSpec
  enableKmsEncryption : Bool := false
deriving Repr

-- ─────────────────────────────────────────────────────────────────────────
-- Embedding of pre-deploy-identity.ts
-- ─────────────────────────────────────────────────────────────────────────

/-- Result shape of `setupTokenVaultKms`:
`{ success: boolean; keyArn?: string; error?: string }`. -/
structure KmsSetupResult where
  success : Bool
  keyArn : Option String := none
  error : Option String := none
deriving DecidableEq, Repr

/-- The tail of `setupTokenVaultKms` once `keyArn` is in hand: call
`setTokenVaultKmsKey(client, keyArn)`; a thrown error is caught by the
surrounding `try` and becomes `{success: false, error: message}`. -/
def configureVault (env : IdEnv) (keyArn : String) : KmsSetupResult × List IdCall :=
  match env.setVault keyArn with
  | .error e => ({ success := false, error := some e.message }, [.setTokenVault keyArn])
  | .ok r =>
      if r.success then
        ({ success := true, keyArn := some keyArn }, [.setTokenVault keyArn])
      else
        ({ success := false, error := r.error }, [.setTokenVault keyArn])

/-- `setupTokenVaultKms` (pre-deploy-identity.ts lines 89–123): start from
`projectSpec.identityKmsKeyArn`; if falsy, send `CreateKeyCommand` and take
`response.KeyMetadata?.Arn`; if that is still falsy fail with
`"Failed to create KMS key"`; then configure the vault with the key.  Any
throw is caught and reported as `{success: false, error: message}`.
Note: the function never issues a `GetTokenVault` lookup. -/
def setupTokenVaultKms (env : IdEnv) (projectSpec : AgentCoreProjectSpec) :
    KmsSetupResult × List IdCall :=
  match truthy projectSpec.identityKmsKeyArn with
  | some keyArn => configureVault env keyArn
  | none =>
      match env.createKey with
      | .error e => ({ success := false, error := some e.message }, [.createKmsKey])
      | .ok arn =>
          match truthy arn with
          | none => ({ success := false, error := some "Failed to create KMS key" }, [.createKmsKey])
          | some keyArn =>
              ((configureVault env keyArn).1, .createKmsKey :: (configureVault env keyArn).2)

/-- The error-message rewrite in the `catch` of
`setupApiKeyCredentialProvider`: a missing-credentials condition gets
actionable guidance, anything else passes its message through. -/
def rewriteErr (e : AwsErr) : String :=
  if e.noCredentials then
    "AWS credentials not found. Run `aws sso login` or set AWS_ACCESS_KEY_ID/AWS_SECRET_ACCESS_KEY."
  else
    e.message

/-- `setupApiKeyCredentialProvider` (pre-deploy-identity.ts lines 144–191):
read the secret by `envVarName` (falsy → `skipped`), check remote
existence (`exists` when found), otherwise create; a throw anywhere in the
`try` is caught and becomes a per-item `error` result. -/
def setupApiKeyCredentialProvider (env : IdEnv) (agentName : String)
    (provider : IdentityProviderRef) : ApiKeyProviderSetupResult × List IdCall :=
  match truthy (env.credGet provider.envVarName) with
  | none =>
      ({ agentName, providerName := provider.name, status := .skipped,
         error := some ("No " ++ provider.envVarName ++ " found in agentcore/.env.local") }, [])
  | some apiKey =>
      match env.providerExists provider.name with
      | .error e =>
          ({ agentName, providerName := provider.name, status := .error,
             error := some (rewriteErr e) }, [.checkExists provider.name])
      | .ok true =>
          ({ agentName, providerName := provider.name, status := .exists },
           [.checkExists provider.name])
      | .ok false =>
          match env.createProvider provider.name apiKey with
          | .error e =>
              ({ agentName, providerName := provider.name, status := .error,
                 error := some (rewriteErr e) },
               [.checkExists provider.name, .createProvider provider.name])
          | .ok cr =>
              ({ agentName, providerName := provider.name,
                 status := if cr.success then .created else .error, error := cr.error },
               [.checkExists provider.name, .createProvider provider.name])

/-- The `for (const provider of ownedProviders)` loop of
`setupAgentIdentityProviders`, guarded by
`provider.variant === 'ApiKeyCredentialProvider'`. -/
def runProviders (env : IdEnv) (agentName : String) :
    List IdentityProviderRef → List ApiKeyProviderSetupResult × List IdCall
  | [] => ([], [])
  | p :: rest =>
      if p.variant = "ApiKeyCredentialProvider" then
        ((setupApiKeyCredentialProvider env agentName p).1 :: (runProviders env agentName rest).1,
         (setupApiKeyCredentialProvider env agentName p).2 ++ (runProviders env agentName rest).2)
      else
        runProviders env agentName rest

/-- `setupAgentIdentityProviders` (pre-deploy-identity.ts lines 125–142):
filter the agent's references to `relation === 'own'` and run the provider
loop. -/
def setupAgentIdentityProviders (env : IdEnv) (agent : AgentEnvSpec) :
    List ApiKeyProviderSetupResult × List IdCall :=
  runProviders env agent.name (agent.identityProviders.filter (fun p => p.relation = .own))

/-- The `for (const agent of projectSpec.agents)` loop of
`setupApiKeyProviders`. -/
def runAgents (env : IdEnv) : List AgentEnvSpec → List ApiKeyProviderSetupResult × List IdCall
  | [] => ([], [])
  | a :: rest =>
      ((setupAgentIdentityProviders env a).1 ++ (runAgents env rest).1,
       (setupAgentIdentityProviders env a).2 ++ (runAgents env rest).2)

/-- The guard `enableKmsEncryption || projectSpec.identityKmsKeyArn` of
`setupApiKeyProviders` (JS truthiness on the ARN string). -/
def kmsRequested (options : SetupOptions) : Bool :=
  options.enableKmsEncryption || (truthy options.projectSpec.identityKmsKeyArn).isSome

/-- `setupApiKeyProviders` (pre-deploy-identity.ts lines 45–87): optionally
run the token-vault KMS setup (a failure becomes a single top-level
`TokenVault` error result with `hasErrors: true` and no per-agent work),
then loop over all agents and aggregate
`hasErrors = results.some(r => r.status === 'error')`. -/
def setupApiKeyProviders (env : IdEnv) (options : SetupOptions) :
    PreDeployIdentityResult × List IdCall :=
  if kmsRequested options then
    let kms := setupTokenVaultKms env options.projectSpec
    if kms.1.success then
      let run := runAgents env options.projectSpec.agents
      ({ results := run.1, hasErrors := run.1.any (fun r => r.status = .error),
         kmsKeyArn := kms.1.keyArn }, kms.2 ++ run.2)
    else
      ({ results := [{ agentName := "", providerName := "TokenVault", status := .error,
                       error := some ("Failed to configure KMS: " ++ tsInterp kms.1.error) }],
         hasErrors := true }, kms.2)
  else
    let run := runAgents env options.projectSpec.agents
    ({ results := run.1, hasErrors := run.1.any (fun r => r.status = .error) }, run.2)

/-- The ordered (agent name, owned API-key provider) pairs contributed by a
list of agents, in loop order. -/
def agentApiKeyPairs (agents : List AgentEnvSpec) : List (String × IdentityProviderRef) :=
  agents.flatMap (fun a =>
    ((a.identityProviders.filter (fun p => p.relation = .own)).filter
      (fun p => p.variant = "ApiKeyCredentialProvider")).map (fun p => (a.name, p)))

/-- The ordered list of (agent name, owned API-key provider) pairs the
provisioning loop visits for a project. -/
def ownedApiKeyProviders (spec : AgentCoreProjectSpec) :
    List (String × IdentityProviderRef) :=
  agentApiKeyPairs spec.agents

-- ─────────────────────────────────────────────────────────────────────────
-- Embedding of destroy/index.ts
-- ─────────────────────────────────────────────────────────────────────────

/-- `AwsDeploymentTarget`: a named deployment target. -/
structure AwsDeploymentTarget where
  name : String
  region : String
deriving DecidableEq, Repr

/-- `DiscoveredStack` (the fields teardown reads). -/
structure DiscoveredStack where
  stackName : String
deriving DecidableEq, Repr

/-- `DeployedTarget`: a target together with its discovered stack. -/
structure DeployedTarget where
  target : AwsDeploymentTarget
  stack : DiscoveredStack
deriving DecidableEq, Repr

/-- `DiscoverDeployedResult`. -/
structure DiscoverDeployedResult where
  projectName : String
  deployedTargets : List DeployedTarget
deriving DecidableEq, Repr

/-- The `for (const target of targets)` loop of `discoverDeployedTargets`:
`findStack` may throw (`.error`), find nothing (`.ok none`) or find a stack;
the `try`/`catch` swallows the throw and the loop moves on. -/
def discoverLoop (find : AwsDeploymentTarget → Except String (Option DiscoveredStack)) :
    List AwsDeploymentTarget → List DeployedTarget
  | [] => []
  | t :: rest =>
      match find t with
      | .ok (some stack) => { target := t, stack } :: discoverLoop find rest
      | .ok none => discoverLoop find rest
      | .error _ => discoverLoop find rest

/-- `discoverDeployedTargets` (destroy/index.ts lines 23–41): read the
project spec and target list (here passed in), then collect the targets
whose stack lookup succeeds with a stack, swallowing per-target errors. -/
def discoverDeployedTargets
    (find : AwsDeploymentTarget → Except String (Option DiscoveredStack))
    (projectName : String) (targets : List AwsDeploymentTarget) : DiscoverDeployedResult :=
  { projectName, deployedTargets := discoverLoop find targets }

/-- `StackSelectionStrategy` of the deployment toolkit (the constructors
relevant to teardown). -/
inductive StackSelectionStrategy
  | allStacks
  | patternMatch
  | patternMustMatch
deriving DecidableEq, Repr

/-- `deployed-state.json` contents: a JS object keyed by target name
(`deployedState.targets[name]`). -/
structure DeployedState where
  targets : String → Option DiscoveredStack

/-- The world seen by `destroyTarget`: whether `cdkProjectDir` exists,
the outcomes of `toolkit.initialize()` (here `toolkitInit`) and
`toolkit.destroy(...)`, the stored deployed state, whether
`readDeployedState` throws, and the outcome of `writeDeployedState`. -/
structure DestroyEnv where
  cdkProjectDirExists : Bool
  toolkitInit : Except String Unit
  destroyResult : Except String Unit
  stored : DeployedState
  readStateError : Option String
  writeResult : Except String Unit

/-- A toolkit call made by `destroyTarget` (the remote side of teardown). -/
inductive DestroyCall
  | toolkitInit
  | destroyStacks (strategy : StackSelectionStrategy) (patterns : List String)
deriving DecidableEq, Repr

/-- `DestroyTargetOptions` (the directory itself lives in `DestroyEnv`). -/
structure DestroyTargetOptions where
  target : DeployedTarget
deriving DecidableEq, Repr

/-- What `destroyTarget` did: its result (`.error` models a rejected
promise), the deployed state on disk afterwards, the state it wrote (or
tried to write — `none` when no write was attempted), and the toolkit
calls it made. -/
structure DestroyOutcome where
  outcome : Except String Unit
  finalState : DeployedState
  written : Option DeployedState
  remoteCalls : List DestroyCall

/-- `destroyTarget` (destroy/index.ts lines 51–82): fail fast when the CDK
project directory is missing; initialize the toolkit and destroy the stack
selected by `PATTERN_MUST_MATCH` on exactly `target.stack.stackName`; then
clean up `deployed-state.json`, deleting only the destroyed target's entry
and writing only when that entry was present, with any read/write error
swallowed. -/
def destroyTarget (env : DestroyEnv) (options : DestroyTargetOptions) : DestroyOutcome :=
  if !env.cdkProjectDirExists then
    { outcome := .error "CDK project not found. Cannot destroy without CDK project.",
      finalState := env.stored, written := none, remoteCalls := [] }
  else
    match env.toolkitInit with
    | .error e =>
        { outcome := .error e, finalState := env.stored, written := none,
          remoteCalls := [.toolkitInit] }
    | .ok _ =>
        let calls : List DestroyCall :=
          [.toolkitInit, .destroyStacks .patternMustMatch [options.target.stack.stackName]]
        match env.destroyResult with
        | .error e =>
            { outcome := .error e, finalState := env.stored, written := none,
              remoteCalls := calls }
        | .ok _ =>
            match env.readStateError with
            | some _ =>
                { outcome := .ok (), finalState := env.stored, written := none,
                  remoteCalls := calls }
            | none =>
                if (env.stored.targets options.target.target.name).isSome then
                  let newState : DeployedState :=
                    { targets := fun k =>
                        if k = options.target.target.name then none else env.stored.targets k }
                  match env.writeResult with
                  | .ok _ =>
                      { outcome := .ok (), finalState := newState, written := some newState,
                        remoteCalls := calls }
                  | .error _ =>
                      { outcome := .ok (), finalState := env.stored, written := some newState,
                        remoteCalls := calls }
                else
                  { outcome := .ok (), finalState := env.stored, written := none,
                    remoteCalls := calls }

-- ─────────────────────────────────────────────────────────────────────────
-- Embedding of the TUI bind-listing filters
-- ─────────────────────────────────────────────────────────────────────────

/-- An owned memory provider as listed by `useOwnedMemories`. -/
structure OwnedMemory where
  name : String
  ownerAgent : String
deriving DecidableEq, Repr

/-- An owned identity provider as listed by `useOwnedIdentities`. -/
structure OwnedIdentity where
  name : String
  ownerAgent : String
deriving DecidableEq, Repr

/-- A `SelectableItem` of the TUI list components. -/
structure SelectableItem where
  id : String
  title : String
  description : Option String := none
deriving DecidableEq, Repr

/-- `memoryItems` of `AddMemoryFlow`: memories offered for binding to
`targetAgent` — owned memories filtered by
`m.ownerAgent !== flow.targetAgent` and mapped to selectable items. -/
def memoryItems (ownedMemories : List OwnedMemory) (targetAgent : String) :
    List SelectableItem :=
  (ownedMemories.filter (fun m => m.ownerAgent ≠ targetAgent)).map
    (fun m => { id := m.name, title := m.name, description := some ("Owned by " ++ m.ownerAgent) })

/-- `identityItems` of `AddIdentityFlow` (lines 78–87): identities offered
for binding to `targetAgent` — owned identities filtered by
`i.ownerAgent !== flow.targetAgent` and mapped to selectable items. -/
def identityItems (ownedIdentities : List OwnedIdentity) (targetAgent : String) :
    List SelectableItem :=
  (ownedIdentities.filter (fun i => i.ownerAgent ≠ targetAgent)).map
    (fun i => { id := i.name, title := i.name, description := some ("Owned by " ++ i.ownerAgent) })

-- ─────────────────────────────────────────────────────────────────────────
-- Concrete scenarios (used to evaluate the embedded code at fixed inputs)
-- ─────────────────────────────────────────────────────────────────────────

/-- A remote world where the token vault already holds a customer-managed
key with an ARN (the scenario of the repository's own
`KMS key reuse via GetTokenVault` test suite); key creation would mint
`key/new-key`. -/
def c1Env : IdEnv :=
  { credGet := fun _ => none
    getTokenVault := .ok { keyType := .customerManagedKey,
                           kmsKeyArn := some "arn:aws:kms:us-east-1:123:key/existing" }
    createKey := .ok (some "arn:aws:kms:us-east-1:123:key/new-key")
    setVault := fun _ => .ok { success := true }
    providerExists := fun _ => .ok false
    createProvider := fun _ _ => .ok { success := true } }

/-- Options asking for KMS encryption on a project that has not recorded a
key ARN. -/
def c1Options : SetupOptions :=
  { projectSpec := { name := "test-project", agents := [] }, enableKmsEncryption := true }

/-- One agent owning one API-key provider, used by several scenarios. -/
def agentA : AgentEnvSpec :=
  { name := "A",
    identityProviders := [{ relation := .own, name := "Cred1",
                            variant := "ApiKeyCredentialProvider", envVarName := "CRED1_KEY" }] }

/-- A second agent owning a second API-key provider. -/
def agentB : AgentEnvSpec :=
  { name := "B",
    identityProviders := [{ relation := .own, name := "Cred2",
                            variant := "ApiKeyCredentialProvider", envVarName := "CRED2_KEY" }] }

/-- A remote world where KMS key creation throws. -/
def c3Env : IdEnv :=
  { credGet := fun _ => some "sk-123"
    getTokenVault := .ok { keyType := .serviceManagedKey }
    createKey := .error { message := "kms down", noCredentials := false }
    setVault := fun _ => .ok { success := true }
    providerExists := fun _ => .ok false
    createProvider := fun _ _ => .ok { success := true } }

/-- Options requesting encryption for a two-agent project. -/
def c3Options : SetupOptions :=
  { projectSpec := { name := "proj", agents := [agentA, agentB] }, enableKmsEncryption := true }

/-- A remote world where the existence check for `Cred1` throws but every
other call succeeds. -/
def c4Env : IdEnv :=
  { credGet := fun _ => some "sk-123"
    getTokenVault := .ok { keyType := .serviceManagedKey }
    createKey := .ok (some "arn:key")
    setVault := fun _ => .ok { success := true }
    providerExists := fun n => if n = "Cred1" then .error { message := "boom", noCredentials := false } else .ok false
    createProvider := fun _ _ => .ok { success := true } }

/-- A two-agent project, no KMS requested. -/
def twoAgentOptions : SetupOptions :=
  { projectSpec := { name := "proj", agents := [agentA, agentB] } }

/-- A one-agent project, no KMS requested. -/
def oneAgentOptions : SetupOptions :=
  { projectSpec := { name := "p", agents := [agentA] } }

/-- A remote world where every provider already exists. -/
def c5Env : IdEnv :=
  { credGet := fun _ => some "sk-123"
    getTokenVault := .ok { keyType := .serviceManagedKey }
    createKey := .ok (some "arn:key")
    setVault := fun _ => .ok { success := true }
    providerExists := fun _ => .ok true
    createProvider := fun _ _ => .ok { success := true } }

/-- A remote world where no secret is configured at all. -/
def c8Env : IdEnv :=
  { credGet := fun _ => none
    getTokenVault := .ok { keyType := .serviceManagedKey }
    createKey := .ok (some "arn:key")
    setVault := fun _ => .ok { success := true }
    providerExists := fun _ => .ok false
    createProvider := fun _ _ => .ok { success := true } }

/-- Deployment targets `t1` and `t2`. -/
def target1 : AwsDeploymentTarget := { name := "t1", region := "us-east-1" }

/-- Second deployment target. -/
def target2 : AwsDeploymentTarget := { name := "t2", region := "eu-west-1" }

/-- A stack lookup that finds a stack for `t1` and throws for anything
else. -/
def c6Find (t : AwsDeploymentTarget) : Except String (Option DiscoveredStack) :=
  if t.name = "t1" then .ok (some { stackName := "S1" }) else .error "no credentials"

/-- A deployed-state file holding entries for `t1` and `t2`. -/
def twoEntryState : DeployedState :=
  { targets := fun k =>
      if k = "t1" then some { stackName := "S1" }
      else if k = "t2" then some { stackName := "S2" }
      else none }

/-- Teardown world: everything succeeds except the final
`writeDeployedState`, which throws. -/
def c2Env : DestroyEnv :=
  { cdkProjectDirExists := true
    toolkitInit := .ok ()
    destroyResult := .ok ()
    stored := twoEntryState
    readStateError := none
    writeResult := .error "EACCES" }

/-- Teardown world with a missing CDK project directory. -/
def c2EnvNoDir : DestroyEnv :=
  { cdkProjectDirExists := false
    toolkitInit := .ok ()
    destroyResult := .ok ()
    stored := twoEntryState
    readStateError := none
    writeResult := .ok () }

/-- Teardown world where everything, including local cleanup, succeeds. -/
def c2EnvAllOk : DestroyEnv :=
  { cdkProjectDirExists := true
    toolkitInit := .ok ()
    destroyResult := .ok ()
    stored := twoEntryState
    readStateError := none
    writeResult := .ok () }

/-- Teardown world whose deployed-state file has no entry for the
destroyed target. -/
def c10EnvNoEntry : DestroyEnv :=
  { cdkProjectDirExists := true
    toolkitInit := .ok ()
    destroyResult := .ok ()
    stored := { targets := fun k => if k = "t2" then some { stackName := "S2" } else none }
    readStateError := none
    writeResult := .ok () }

/-- Destroying target `t1`, whose discovered stack is `S1`. -/
def destroyT1 : DestroyTargetOptions :=
  { target := { target := target1, stack := { stackName := "S1" } } }

-- ─────────────────────────────────────────────────────────────────────────
-- Structural lemmas about the provisioning loops
-- ─────────────────────────────────────────────────────────────────────────

theorem setupApiKeyCredentialProvider_keys (env : IdEnv) (an : String)
    (p : IdentityProviderRef) :
    (setupApiKeyCredentialProvider env an p).1.agentName = an ∧
    (setupApiKeyCredentialProvider env an p).1.providerName = p.name := by
  unfold setupApiKeyCredentialProvider
  repeat' split
  all_goals exact ⟨rfl, rfl⟩

theorem runProviders_fst (env : IdEnv) (an : String) (ps : List IdentityProviderRef) :
    (runProviders env an ps).1 =
      (ps.filter (fun p => p.variant = "ApiKeyCredentialProvider")).map
        (fun p => (setupApiKeyCredentialProvider env an p).1) := by
  induction ps with
  | nil => rfl
  | cons p rest ih =>
      by_cases h : p.variant = "ApiKeyCredentialProvider" <;>
        simp [runProviders, List.filter_cons, h, ih]

theorem runProviders_snd_mem (env : IdEnv) (an : String) (ps : List IdentityProviderRef)
    (c : IdCall) (hc : c ∈ (runProviders env an ps).2) :
    ∃ p ∈ ps, p.variant = "ApiKeyCredentialProvider" ∧
      c ∈ (setupApiKeyCredentialProvider env an p).2 := by
  induction ps with
  | nil => simp [runProviders] at hc
  | cons p rest ih =>
      by_cases h : p.variant = "ApiKeyCredentialProvider"
      · simp only [runProviders, if_pos h, List.mem_append] at hc
        rcases hc with hc | hc
        · exact ⟨p, by simp, h, hc⟩
        · obtain ⟨q, hq, hv, hcq⟩ := ih hc
          exact ⟨q, by simp [hq], hv, hcq⟩
      · simp only [runProviders, if_neg h] at hc
        obtain ⟨q, hq, hv, hcq⟩ := ih hc
        exact ⟨q, by simp [hq], hv, hcq⟩

theorem runAgents_fst (env : IdEnv) (agents : List AgentEnvSpec) :
    (runAgents env agents).1 =
      (agentApiKeyPairs agents).map (fun x => (setupApiKeyCredentialProvider env x.1 x.2).1) := by
  induction agents with
  | nil => rfl
  | cons a rest ih =>
      simp [runAgents, agentApiKeyPairs, setupAgentIdentityProviders, runProviders_fst,
        ih, List.map_map, Function.comp]

theorem runAgents_snd_mem (env : IdEnv) (agents : List AgentEnvSpec) (c : IdCall)
    (hc : c ∈ (runAgents env agents).2) :
    ∃ x ∈ agentApiKeyPairs agents, c ∈ (setupApiKeyCredentialProvider env x.1 x.2).2 := by
  induction agents with
  | nil => simp [runAgents] at hc
  | cons a rest ih =>
      simp only [runAgents, List.mem_append] at hc
      rcases hc with hc | hc
      · obtain ⟨p, hp, hv, hcp⟩ :=
          runProviders_snd_mem env a.name _ c hc
        refine ⟨(a.name, p), ?_, hcp⟩
        simp only [agentApiKeyPairs, List.flatMap_cons, List.mem_append]
        left
        simp only [List.mem_map]
        refine ⟨p, ?_, rfl⟩
        simp only [List.mem_filter] at hp ⊢
        exact ⟨hp, by simp [hv]⟩
      · obtain ⟨x, hx, hcx⟩ := ih hc
        refine ⟨x, ?_, hcx⟩
        simp only [agentApiKeyPairs, List.flatMap_cons, List.mem_append]
        right
        exact hx

theorem configureVault_snd_mem (env : IdEnv) (keyArn : String) (c : IdCall)
    (hc : c ∈ (configureVault env keyArn).2) : c = .setTokenVault keyArn := by
  unfold configureVault at hc
  split at hc
  · simpa using hc
  · split at hc <;> simpa using hc

theorem setupTokenVaultKms_snd_mem (env : IdEnv) (spec : AgentCoreProjectSpec) (c : IdCall)
    (hc : c ∈ (setupTokenVaultKms env spec).2) :
    c = .createKmsKey ∨ ∃ arn, c = .setTokenVault arn := by
  unfold setupTokenVaultKms at hc
  split at hc
  · exact .inr ⟨_, configureVault_snd_mem env _ c hc⟩
  · split at hc
    · simp at hc
      exact .inl hc
    · split at hc
      · simp at hc
        exact .inl hc
      · simp only [List.mem_cons] at hc
        rcases hc with hc | hc
        · exact .inl hc
        · exact .inr ⟨_, configureVault_snd_mem env _ c hc⟩

theorem setup_snd_createProvider (env : IdEnv) (an : String) (p : IdentityProviderRef)
    (n : String) (hc : IdCall.createProvider n ∈ (setupApiKeyCredentialProvider env an p).2) :
    p.name = n ∧ env.providerExists p.name = .ok false := by
  unfold setupApiKeyCredentialProvider at hc
  split at hc
  · simp at hc
  · split at hc
    · simp at hc
    · simp at hc
    · rename_i hex
      split at hc <;> simp at hc <;> exact ⟨hc.symm, hex⟩

theorem setup_exists_eq (env : IdEnv) (an : String) (p : IdentityProviderRef)
    (hkey : truthy (env.credGet p.envVarName) ≠ none)
    (hex : env.providerExists p.name = .ok true) :
    (setupApiKeyCredentialProvider env an p).1 =
      { agentName := an, providerName := p.name, status := .exists } ∧
    (setupApiKeyCredentialProvider env an p).2 = [.checkExists p.name] := by
  cases h : truthy (env.credGet p.envVarName) with
  | none => exact absurd h hkey
  | some apiKey =>
      unfold setupApiKeyCredentialProvider
      rw [h, hex]
      exact ⟨rfl, rfl⟩

theorem setup_skipped_eq (env : IdEnv) (an : String) (p : IdentityProviderRef)
    (hkey : truthy (env.credGet p.envVarName) = none) :
    (setupApiKeyCredentialProvider env an p).1 =
      { agentName := an, providerName := p.name, status := .skipped,
        error := some ("No " ++ p.envVarName ++ " found in agentcore/.env.local") } := by
  unfold setupApiKeyCredentialProvider
  rw [hkey]

-- ─────────────────────────────────────────────────────────────────────────
-- Structural lemmas about the discovery loop
-- ─────────────────────────────────────────────────────────────────────────

theorem discoverLoop_mem_of (find : AwsDeploymentTarget → Except String (Option DiscoveredStack))
    (targets : List AwsDeploymentTarget) (t : AwsDeploymentTarget) (s : DiscoveredStack)
    (ht : t ∈ targets) (hf : find t = .ok (some s)) :
    ({ target := t, stack := s } : DeployedTarget) ∈ discoverLoop find targets := by
  induction targets with
  | nil => simp at ht
  | cons t' rest ih =>
      rcases List.mem_cons.mp ht with rfl | ht'
      · simp [discoverLoop, hf]
      · cases h : find t' with
        | error e => simpa [discoverLoop, h] using ih ht'
        | ok o => cases o <;> simp [discoverLoop, h, ih ht']

theorem discoverLoop_mem (find : AwsDeploymentTarget → Except String (Option DiscoveredStack))
    (targets : List AwsDeploymentTarget) (d : DeployedTarget)
    (hd : d ∈ discoverLoop find targets) :
    d.target ∈ targets ∧ find d.target = .ok (some d.stack) := by
  induction targets with
  | nil => simp [discoverLoop] at hd
  | cons t rest ih =>
      cases h : find t with
      | error e =>
          rw [discoverLoop, h] at hd
          obtain ⟨h1, h2⟩ := ih hd
          exact ⟨List.mem_cons_of_mem _ h1, h2⟩
      | ok o =>
          cases o with
          | none =>
              rw [discoverLoop, h] at hd
              obtain ⟨h1, h2⟩ := ih hd
              exact ⟨List.mem_cons_of_mem _ h1, h2⟩
          | some s =>
              rw [discoverLoop, h] at hd
              rcases List.mem_cons.mp hd with rfl | hd'
              · exact ⟨List.mem_cons_self _ _, h⟩
              · obtain ⟨h1, h2⟩ := ih hd'
                exact ⟨List.mem_cons_of_mem _ h1, h2⟩

-- ─────────────────────────────────────────────────────────────────────────
-- Claim theorems
-- ─────────────────────────────────────────────────────────────────────────

/-- C6: `discoverDeployedTargets` visits every configured target; a target
whose stack lookup succeeds with a stack appears in the result, every
result entry comes from a configured target whose lookup succeeded with
exactly that stack (so a target whose lookup threw, or found nothing, is
simply omitted), and one target's failure never aborts discovery of the
others. -/
theorem discover_best_effort
    (find : AwsDeploymentTarget → Except String (Option DiscoveredStack))
    (projectName : String) (targets : List AwsDeploymentTarget) :
    (∀ t ∈ targets, ∀ s, find t = .ok (some s) →
        ({ target := t, stack := s } : DeployedTarget) ∈
          (discoverDeployedTargets find projectName targets).deployedTargets) ∧
    (∀ d ∈ (discoverDeployedTargets find projectName targets).deployedTargets,
        d.target ∈ targets ∧ find d.target = .ok (some d.stack)) := by
  refine ⟨fun t ht s hf => ?_, fun d hd => ?_⟩
  · exact discoverLoop_mem_of find targets t s ht hf
  · exact discoverLoop_mem find targets d hd

/-- C6 witness: with target `t1` resolving to stack `S1` and the lookup for
`t2` throwing, discovery still returns the `t1` entry, and the errored
target contributes nothing. -/
theorem discover_best_effort_witness :
    ({ target := target1, stack := { stackName := "S1" } } : DeployedTarget) ∈
      (discoverDeployedTargets c6Find "proj" [target1, target2]).deployedTargets ∧
    ∀ d ∈ (discoverDeployedTargets c6Find "proj" [target1, target2]).deployedTargets,
      d.target = target1 := by
  refine ⟨(discover_best_effort c6Find "proj" [target1, target2]).1 target1 (by simp)
    { stackName := "S1" } rfl, fun d hd => ?_⟩
  have h := (discover_best_effort c6Find "proj" [target1, target2]).2 d hd
  rcases List.mem_cons.mp h.1 with h1 | h1
  · exact h1
  · have h2 := h.2
    rcases List.mem_cons.mp h1 with h1 | h1
    · rw [h1, show c6Find target2 = Except.error "no credentials" from rfl] at h2
      exact Except.noConfusion h2
    · simp at h1

/-- C7: `destroyTarget` only ever invokes the toolkit's destroy with the
`PATTERN_MUST_MATCH` selection strategy and the single pattern
`target.stack.stackName`; when the CDK directory exists and toolkit
initialization succeeds, exactly that destroy call is issued. -/
theorem destroy_exact_stack_pattern (env : DestroyEnv) (options : DestroyTargetOptions) :
    (∀ s p, DestroyCall.destroyStacks s p ∈ (destroyTarget env options).remoteCalls →
        s = .patternMustMatch ∧ p = [options.target.stack.stackName]) ∧
    (env.cdkProjectDirExists = true → env.toolkitInit = .ok () →
        DestroyCall.destroyStacks .patternMustMatch [options.target.stack.stackName] ∈
          (destroyTarget env options).remoteCalls) := by
  constructor
  · intro s p hmem
    unfold destroyTarget at hmem
    repeat' split at hmem
    all_goals simp_all
  · intro hdir hinit
    unfold destroyTarget
    rw [hdir, hinit]
    repeat' split
    all_goals simp_all

/-- C7 witness: in the all-success teardown world for target `t1`, the
destroy call is made with `PATTERN_MUST_MATCH` on exactly `["S1"]`. -/
theorem destroy_exact_stack_pattern_witness :
    DestroyCall.destroyStacks .patternMustMatch ["S1"] ∈
      (destroyTarget c2EnvAllOk destroyT1).remoteCalls :=
  (destroy_exact_stack_pattern c2EnvAllOk destroyT1).2 rfl rfl

/-- C2 counterexample: with the CDK directory present, a successful remote
destroy of `t1`, and a `writeDeployedState` that throws, `destroyTarget`
returns successfully (the cleanup failure is swallowed) but the
DeployedState entry for `t1` is still present afterwards — refuting the
claim that on success the entry is absent even if local-state cleanup
fails. -/
theorem destroyTarget_cleanup_failure_entry_remains :
    (destroyTarget c2Env destroyT1).outcome = .ok () ∧
    (destroyTarget c2Env destroyT1).finalState.targets "t1" =
      some { stackName := "S1" } := by
  exact ⟨rfl, rfl⟩

/-- C2 (amended): `destroyTarget` on a target whose local CDK project
directory is absent fails with a descriptive error before any toolkit
call; when the remote destroy succeeds no cleanup exception propagates
(the outcome is success regardless of the read/write results); and when
the cleanup read and write also succeed, the DeployedState entry for the
destroyed target is absent afterwards. -/
theorem destroyTarget_precondition_and_cleanup (env : DestroyEnv)
    (options : DestroyTargetOptions) :
    (env.cdkProjectDirExists = false →
        (destroyTarget env options).outcome =
          .error "CDK project not found. Cannot destroy without CDK project." ∧
        (destroyTarget env options).remoteCalls = []) ∧
    (env.cdkProjectDirExists = true → env.toolkitInit = .ok () →
      env.destroyResult = .ok () →
        (destroyTarget env options).outcome = .ok ()) ∧
    (env.cdkProjectDirExists = true → env.toolkitInit = .ok () →
      env.destroyResult = .ok () → env.readStateError = none → env.writeResult = .ok () →
        (destroyTarget env options).finalState.targets options.target.target.name = none) := by
  refine ⟨fun hdir => ?_, fun hdir hinit hdes => ?_, fun hdir hinit hdes hread hwrite => ?_⟩
  · rw [destroyTarget, hdir]
    exact ⟨rfl, rfl⟩
  · simp only [destroyTarget, hdir, hinit, hdes, Bool.not_true, Bool.false_eq_true,
      if_false]
    repeat' split
    all_goals rfl
  · simp only [destroyTarget, hdir, hinit, hdes, hread, hwrite, Bool.not_true,
      Bool.false_eq_true, if_false]
    split
    · simp
    · rename_i h
      rw [Option.not_isSome_iff_eq_none.mp h]

/-- C2 witness: with the CDK directory missing the call fails with the
descriptive error and makes no toolkit call; in the all-success world the
destroy succeeds and the `t1` entry is gone while `t2` survives in the
written state. -/
theorem destroyTarget_precondition_and_cleanup_witness :
    (destroyTarget c2EnvNoDir destroyT1).outcome =
      .error "CDK project not found. Cannot destroy without CDK project." ∧
    (destroyTarget c2EnvNoDir destroyT1).remoteCalls = [] ∧
    (destroyTarget c2EnvAllOk destroyT1).outcome = .ok () ∧
    (destroyTarget c2EnvAllOk destroyT1).finalState.targets "t1" = none := by
  have h1 := (destroyTarget_precondition_and_cleanup c2EnvNoDir destroyT1).1 rfl
  have h2 := (destroyTarget_precondition_and_cleanup c2EnvAllOk destroyT1).2.1 rfl rfl rfl
  have h3 := (destroyTarget_precondition_and_cleanup c2EnvAllOk destroyT1).2.2 rfl rfl rfl rfl rfl
  exact ⟨h1.1, h1.2, h2, h3⟩

/-- C10: the local-state cleanup of `destroyTarget` is frame-preserving:
any state it writes has the destroyed target's entry removed and every
other key unchanged; when the stored state has no entry under the target's
name nothing is written at all; and the final on-disk state agrees with
the original on every key other than the destroyed target's. -/
theorem destroy_state_frame (env : DestroyEnv) (options : DestroyTargetOptions) :
    (∀ st, (destroyTarget env options).written = some st →
        st.targets options.target.target.name = none ∧
        ∀ k, k ≠ options.target.target.name → st.targets k = env.stored.targets k) ∧
    (env.stored.targets options.target.target.name = none →
        (destroyTarget env options).written = none) ∧
    (∀ k, k ≠ options.target.target.name →
        (destroyTarget env options).finalState.targets k = env.stored.targets k) := by
  refine ⟨fun st hst => ?_, fun hnone => ?_, fun k hk => ?_⟩
  · unfold destroyTarget at hst
    repeat' split at hst
    all_goals simp at hst
    all_goals rw [← hst]
    all_goals exact ⟨if_pos rfl, fun k hk => if_neg hk⟩
  · unfold destroyTarget
    repeat' split
    all_goals first | rfl | simp_all
  · unfold destroyTarget
    repeat' split
    all_goals first | rfl | simp [hk]

/-- C10 witness: destroying `t1` in the all-success world writes a state
that drops `t1` but keeps `t2`, and in a world whose stored state has no
`t1` entry nothing is written. -/
theorem destroy_state_frame_witness :
    (destroyTarget c2EnvAllOk destroyT1).finalState.targets "t2" =
      some { stackName := "S2" } ∧
    (destroyTarget c10EnvNoEntry destroyT1).written = none := by
  have h1 := (destroy_state_frame c2EnvAllOk destroyT1).2.2 "t2" (by decide)
  have h2 := (destroy_state_frame c10EnvNoEntry destroyT1).2.1 rfl
  exact ⟨h1.trans rfl, h2⟩

/-- C9: the "available to bind" listings of both the memory and the
identity bind flows exclude every resource owned by the target agent —
each offered item comes from a resource whose `ownerAgent` differs from
the target. -/
theorem bind_listings_exclude_owner (ownedMemories : List OwnedMemory)
    (ownedIdentities : List OwnedIdentity) (targetAgent : String) :
    (∀ item ∈ memoryItems ownedMemories targetAgent,
        ∃ m, m ∈ ownedMemories ∧ m.ownerAgent ≠ targetAgent ∧ item.id = m.name) ∧
    (∀ item ∈ identityItems ownedIdentities targetAgent,
        ∃ i, i ∈ ownedIdentities ∧ i.ownerAgent ≠ targetAgent ∧ item.id = i.name) := by
  constructor
  · intro item hitem
    simp only [memoryItems, List.mem_map, List.mem_filter] at hitem
    obtain ⟨m, ⟨hm, hne⟩, rfl⟩ := hitem
    exact ⟨m, hm, by simpa using hne, rfl⟩
  · intro item hitem
    simp only [identityItems, List.mem_map, List.mem_filter] at hitem
    obtain ⟨i, ⟨hi, hne⟩, rfl⟩ := hitem
    exact ⟨i, hi, by simpa using hne, rfl⟩

/-- C9 witness: with memory `M` owned by `A` and memory `N` owned by `B`,
and identity `I` owned by `A`, every item offered for binding to `A` comes
from a resource not owned by `A` (concretely, only `N` is offered; `I` is
filtered out of the identity listing). -/
theorem bind_listings_exclude_owner_witness :
    (∃ m, m ∈ [({ name := "M", ownerAgent := "A" } : OwnedMemory),
               { name := "N", ownerAgent := "B" }] ∧
       m.ownerAgent ≠ "A" ∧ "N" = m.name) ∧
    identityItems [{ name := "I", ownerAgent := "A" }] "A" = [] := by
  constructor
  · exact (bind_listings_exclude_owner
      [{ name := "M", ownerAgent := "A" }, { name := "N", ownerAgent := "B" }]
      [{ name := "I", ownerAgent := "A" }] "A").1
      { id := "N", title := "N", description := some "Owned by B" } (by simp [memoryItems])
  · rfl

/-- C1 (evaluating the code at the failing input): with encryption
requested, no key ARN recorded in the project, and the remote token vault
already reporting a customer-managed key with an ARN,
`setupApiKeyProviders` never issues a token-vault lookup, sends a KMS
key-creation call anyway, and returns the freshly created key's ARN rather
than the vault's existing one. -/
theorem setup_ignores_existing_vault_cmk :
    c1Env.getTokenVault =
      .ok { keyType := .customerManagedKey,
            kmsKeyArn := some "arn:aws:kms:us-east-1:123:key/existing" } ∧
    IdCall.getTokenVault ∉ (setupApiKeyProviders c1Env c1Options).2 ∧
    IdCall.createKmsKey ∈ (setupApiKeyProviders c1Env c1Options).2 ∧
    (setupApiKeyProviders c1Env c1Options).1.kmsKeyArn =
      some "arn:aws:kms:us-east-1:123:key/new-key" :=
  ⟨rfl, by decide, by decide, rfl⟩

/-- C3: when encryption is requested and the token-vault KMS setup fails,
`setupApiKeyProviders` reports exactly one top-level `TokenVault` error
with `hasErrors = true`, and no provider existence check or provider
creation call is made for any agent. -/
theorem kms_failure_short_circuits (env : IdEnv) (options : SetupOptions)
    (hreq : kmsRequested options = true)
    (hfail : (setupTokenVaultKms env options.projectSpec).1.success = false) :
    (setupApiKeyProviders env options).1.results =
      [{ agentName := "", providerName := "TokenVault", status := .error,
         error := some ("Failed to configure KMS: " ++
           tsInterp (setupTokenVaultKms env options.projectSpec).1.error) }] ∧
    (setupApiKeyProviders env options).1.hasErrors = true ∧
    ∀ n, IdCall.checkExists n ∉ (setupApiKeyProviders env options).2 ∧
         IdCall.createProvider n ∉ (setupApiKeyProviders env options).2 := by
  have hres : setupApiKeyProviders env options =
      ({ results := [{ agentName := "", providerName := "TokenVault", status := .error,
                       error := some ("Failed to configure KMS: " ++
                         tsInterp (setupTokenVaultKms env options.projectSpec).1.error) }],
         hasErrors := true },
       (setupTokenVaultKms env options.projectSpec).2) := by
    simp only [setupApiKeyProviders, hreq, if_true, hfail, Bool.false_eq_true, if_false]
  rw [hres]
  refine ⟨rfl, rfl, fun n => ⟨fun hc => ?_, fun hc => ?_⟩⟩
  · rcases setupTokenVaultKms_snd_mem env options.projectSpec _ hc with h | ⟨arn, h⟩ <;>
      exact IdCall.noConfusion h
  · rcases setupTokenVaultKms_snd_mem env options.projectSpec _ hc with h | ⟨arn, h⟩ <;>
      exact IdCall.noConfusion h

/-- C3 witness: with key creation throwing `kms down` and encryption
requested, the two-agent provisioning run reports the single KMS error and
never checks or creates either provider. -/
theorem kms_failure_short_circuits_witness :
    (setupApiKeyProviders c3Env c3Options).1.hasErrors = true ∧
    IdCall.checkExists "Cred1" ∉ (setupApiKeyProviders c3Env c3Options).2 ∧
    IdCall.createProvider "Cred2" ∉ (setupApiKeyProviders c3Env c3Options).2 := by
  have h := kms_failure_short_circuits c3Env c3Options rfl rfl
  exact ⟨h.2.1, (h.2.2 "Cred1").1, (h.2.2 "Cred2").2⟩

/-- C4: whenever the KMS precondition holds (encryption not requested, or
its setup succeeded), the per-provider loop produces exactly one result
per (agent, owned API-key provider) pair, in order — each pair's result is
its own independently computed outcome (so one pair's failure is captured
in its entry and cannot prevent later pairs from being attempted), and
the result keys enumerate all pairs. -/
theorem provider_loop_attempts_every_pair (env : IdEnv) (options : SetupOptions)
    (hkms : kmsRequested options = true →
      (setupTokenVaultKms env options.projectSpec).1.success = true) :
    (setupApiKeyProviders env options).1.results =
      (ownedApiKeyProviders options.projectSpec).map
        (fun x => (setupApiKeyCredentialProvider env x.1 x.2).1) ∧
    (setupApiKeyProviders env options).1.results.map
        (fun r => (r.agentName, r.providerName)) =
      (ownedApiKeyProviders options.projectSpec).map (fun x => (x.1, x.2.name)) := by
  have hres : (setupApiKeyProviders env options).1.results =
      (runAgents env options.projectSpec.agents).1 := by
    by_cases hreq : kmsRequested options = true
    · simp only [setupApiKeyProviders, hreq, if_true, hkms hreq]
    · simp only [setupApiKeyProviders, if_neg hreq]
  have h1 : (setupApiKeyProviders env options).1.results =
      (ownedApiKeyProviders options.projectSpec).map
        (fun x => (setupApiKeyCredentialProvider env x.1 x.2).1) :=
    hres.trans (runAgents_fst env options.projectSpec.agents)
  refine ⟨h1, ?_⟩
  rw [h1, List.map_map]
  refine List.map_congr_left (fun x _ => ?_)
  have hk := setupApiKeyCredentialProvider_keys env x.1 x.2
  simp [Function.comp, hk.1, hk.2]

/-- C4 witness: with the existence check for `Cred1` throwing and all other
calls succeeding, both pairs still produce their result, in order. -/
theorem provider_loop_attempts_every_pair_witness :
    (setupApiKeyProviders c4Env twoAgentOptions).1.results.map
        (fun r => (r.agentName, r.providerName)) =
      [("A", "Cred1"), ("B", "Cred2")] ∧
    (setupApiKeyProviders c4Env twoAgentOptions).1.results.map
        (fun r => r.status) = [.error, .created] := by
  have h := provider_loop_attempts_every_pair c4Env twoAgentOptions (fun _ => rfl)
  exact ⟨h.2.trans (by decide), by decide⟩

/-- C5: for an owned API-key provider whose secret is configured and whose
name already exists remotely (as does every owned API-key provider sharing
that name), the provisioning run reports status `exists` for it and issues
no creation call for that provider name; applied to a second run over the
remote state left by a first run (where the provider now exists), this is
exactly the idempotence property. -/
theorem existing_provider_reported_exists (env : IdEnv) (options : SetupOptions)
    (x : String × IdentityProviderRef)
    (hmem : x ∈ ownedApiKeyProviders options.projectSpec)
    (hkey : truthy (env.credGet x.2.envVarName) ≠ none)
    (hall : ∀ y ∈ ownedApiKeyProviders options.projectSpec,
        y.2.name = x.2.name → env.providerExists y.2.name = .ok true)
    (hkms : kmsRequested options = true →
      (setupTokenVaultKms env options.projectSpec).1.success = true) :
    ({ agentName := x.1, providerName := x.2.name, status := .exists } :
        ApiKeyProviderSetupResult) ∈ (setupApiKeyProviders env options).1.results ∧
    IdCall.createProvider x.2.name ∉ (setupApiKeyProviders env options).2 := by
  have hex : env.providerExists x.2.name = .ok true := hall x hmem rfl
  have hres : (setupApiKeyProviders env options).1.results =
      (runAgents env options.projectSpec.agents).1 := by
    by_cases hreq : kmsRequested options = true
    · simp only [setupApiKeyProviders, hreq, if_true, hkms hreq]
    · simp only [setupApiKeyProviders, if_neg hreq]
  constructor
  · rw [hres, runAgents_fst]
    exact List.mem_map.mpr ⟨x, hmem, (setup_exists_eq env x.1 x.2 hkey hex).1⟩
  · have hrun : ∀ hc : IdCall.createProvider x.2.name ∈
        (runAgents env options.projectSpec.agents).2, False := by
      intro hc
      obtain ⟨y, hy, hcy⟩ := runAgents_snd_mem env options.projectSpec.agents _ hc
      obtain ⟨hn, hfalse⟩ := setup_snd_createProvider env y.1 y.2 _ hcy
      rw [hall y hy hn] at hfalse
      simp at hfalse
    intro hc
    by_cases hreq : kmsRequested options = true
    · have htr : (setupApiKeyProviders env options).2 =
          (setupTokenVaultKms env options.projectSpec).2 ++
            (runAgents env options.projectSpec.agents).2 := by
        simp only [setupApiKeyProviders, hreq, if_true, hkms hreq]
      rw [htr, List.mem_append] at hc
      rcases hc with hc | hc
      · rcases setupTokenVaultKms_snd_mem env options.projectSpec _ hc with h | ⟨arn, h⟩ <;>
          exact IdCall.noConfusion h
      · exact hrun hc
    · have htr : (setupApiKeyProviders env options).2 =
          (runAgents env options.projectSpec.agents).2 := by
        simp only [setupApiKeyProviders, if_neg hreq]
      rw [htr] at hc
      exact hrun hc

/-- C5 witness: with every provider already existing remotely and the
secret configured, agent `A`'s provider `Cred1` is reported `exists` and
no creation call for `Cred1` is issued. -/
theorem existing_provider_reported_exists_witness :
    ({ agentName := "A", providerName := "Cred1", status := .exists } :
        ApiKeyProviderSetupResult) ∈
      (setupApiKeyProviders c5Env twoAgentOptions).1.results ∧
    IdCall.createProvider "Cred1" ∉ (setupApiKeyProviders c5Env twoAgentOptions).2 :=
  existing_provider_reported_exists c5Env twoAgentOptions
    ("A", { relation := .own, name := "Cred1", variant := "ApiKeyCredentialProvider",
            envVarName := "CRED1_KEY" })
    (by decide) (by decide) (fun y hy hn => rfl) (fun _ => rfl)

/-- C8: `hasErrors` is true exactly when some per-provider result has
status `error`; and under the KMS precondition, every owned API-key
provider whose secret is missing contributes a `skipped` result whose
message names the missing environment variable (so missing secrets never
set `hasErrors` by themselves). -/
theorem hasErrors_iff_error_and_missing_secret_skipped (env : IdEnv)
    (options : SetupOptions) :
    ((setupApiKeyProviders env options).1.hasErrors = true ↔
      ∃ r ∈ (setupApiKeyProviders env options).1.results, r.status = .error) ∧
    ((kmsRequested options = true →
        (setupTokenVaultKms env options.projectSpec).1.success = true) →
      ∀ x ∈ ownedApiKeyProviders options.projectSpec,
        truthy (env.credGet x.2.envVarName) = none →
        ({ agentName := x.1, providerName := x.2.name, status := .skipped,
           error := some ("No " ++ x.2.envVarName ++ " found in agentcore/.env.local") } :
          ApiKeyProviderSetupResult) ∈ (setupApiKeyProviders env options).1.results) := by
  constructor
  · by_cases hreq : kmsRequested options = true
    · by_cases hs : (setupTokenVaultKms env options.projectSpec).1.success = true
      · simp only [setupApiKeyProviders, hreq, if_true, hs]
        simp [List.any_eq_true]
      · have hs' : (setupTokenVaultKms env options.projectSpec).1.success = false :=
          Bool.not_eq_true _ ▸ Bool.eq_false_iff.mpr hs
        simp only [setupApiKeyProviders, hreq, if_true, hs', Bool.false_eq_true, if_false]
        simp
    · simp only [setupApiKeyProviders, if_neg hreq]
      simp [List.any_eq_true]
  · intro hkms x hx hnone
    have hres : (setupApiKeyProviders env options).1.results =
        (runAgents env options.projectSpec.agents).1 := by
      by_cases hreq : kmsRequested options = true
      · simp only [setupApiKeyProviders, hreq, if_true, hkms hreq]
      · simp only [setupApiKeyProviders, if_neg hreq]
    rw [hres, runAgents_fst]
    exact List.mem_map.mpr ⟨x, hx, setup_skipped_eq env x.1 x.2 hnone⟩

/-- C8 witness: the spec's scenario — agent `A` owns `Cred1` with
`envVarName` `CRED1_KEY` and the secrets file lacks it — yields a
`skipped` result naming `CRED1_KEY` and `hasErrors = false`. -/
theorem hasErrors_iff_error_and_missing_secret_skipped_witness :
    ({ agentName := "A", providerName := "Cred1", status := .skipped,
       error := some "No CRED1_KEY found in agentcore/.env.local" } :
        ApiKeyProviderSetupResult) ∈
      (setupApiKeyProviders c8Env oneAgentOptions).1.results ∧
    (setupApiKeyProviders c8Env oneAgentOptions).1.hasErrors = false := by
  have h := hasErrors_iff_error_and_missing_secret_skipped c8Env oneAgentOptions
  refine ⟨h.2 (fun _ => rfl)
    ("A", { relation := .own, name := "Cred1", variant := "ApiKeyCredentialProvider",
            envVarName := "CRED1_KEY" }) (by decide) rfl, by decide⟩

end AgentCore
